import Mathlib

/-!
Verification development for the GoxViet Vietnamese IME core.

The repository ships the foreign-function headers and C test harnesses of the
engine; the engine core itself (the word-level transformer) is not among the
source files.  Following the specification, the engine is therefore modelled
here as an executable Lean state machine: the shallow embedding below follows
the spec's data model (graphemes, syllable buffer, edit commands, configuration)
and component design (key decoder, syllable model, orthography rules,
transformer, session controller).  The foreign-function boundary declarations
that do appear in the C sources (status codes, function signatures) are embedded
directly from those files.
-/

namespace GoxViet

/-- Input conventions, per the spec's configuration model (`input_method`). -/
inductive InputMethod
  | telex
  | vni
deriving DecidableEq, Repr

/-- Tone-placement styles for diphthongs (`tone_style`). -/
inductive ToneStyle
  | traditional
  | modern
deriving DecidableEq, Repr

/-- The five Vietnamese tones. -/
inductive Tone
  | acute
  | grave
  | hook
  | tilde
  | dot
deriving DecidableEq, Repr

/-- Vowel/consonant modifiers: circumflex (â ê ô), breve (ă), horn (ơ ư) and
the consonant bar producing đ. -/
inductive VMod
  | circ
  | breve
  | horn
  | dbar
deriving DecidableEq, Repr

/-- Modelled from the spec: a grapheme is a base letter plus an optional
modifier and an optional tone; it renders to one user-visible character. -/
structure Grapheme where
  base : Char
  vmod : Option VMod := none
  tone : Option Tone := none
deriving DecidableEq, Repr

def defaultGrapheme : Grapheme := ⟨'a', none, none⟩

/-- Select one of five characters by tone, in spec order
acute, grave, hook-above, tilde, dot-below. -/
def pick5 (t : Tone) (ca cg ch ct cd : Char) : Char :=
  match t with
  | .acute => ca
  | .grave => cg
  | .hook => ch
  | .tilde => ct
  | .dot => cd

/-- Modifier composition on a base letter (only the legal pairs move). -/
def modBase (c : Char) (m : VMod) : Char :=
  match c, m with
  | 'a', .circ => 'â'
  | 'a', .breve => 'ă'
  | 'e', .circ => 'ê'
  | 'o', .circ => 'ô'
  | 'o', .horn => 'ơ'
  | 'u', .horn => 'ư'
  | 'd', .dbar => 'đ'
  | c, _ => c

/-- Precomputed (base+modifier, tone) composition table, as the spec's
Unicode tables component prescribes. -/
def tonedChar (c : Char) (t : Tone) : Char :=
  match c with
  | 'a' => pick5 t 'á' 'à' 'ả' 'ã' 'ạ'
  | 'â' => pick5 t 'ấ' 'ầ' 'ẩ' 'ẫ' 'ậ'
  | 'ă' => pick5 t 'ắ' 'ằ' 'ẳ' 'ẵ' 'ặ'
  | 'e' => pick5 t 'é' 'è' 'ẻ' 'ẽ' 'ẹ'
  | 'ê' => pick5 t 'ế' 'ề' 'ể' 'ễ' 'ệ'
  | 'i' => pick5 t 'í' 'ì' 'ỉ' 'ĩ' 'ị'
  | 'o' => pick5 t 'ó' 'ò' 'ỏ' 'õ' 'ọ'
  | 'ô' => pick5 t 'ố' 'ồ' 'ổ' 'ỗ' 'ộ'
  | 'ơ' => pick5 t 'ớ' 'ờ' 'ở' 'ỡ' 'ợ'
  | 'u' => pick5 t 'ú' 'ù' 'ủ' 'ũ' 'ụ'
  | 'ư' => pick5 t 'ứ' 'ừ' 'ử' 'ữ' 'ự'
  | 'y' => pick5 t 'ý' 'ỳ' 'ỷ' 'ỹ' 'ỵ'
  | c => c

/-- Render a grapheme to its single user-visible character. -/
def renderG (g : Grapheme) : Char :=
  let b := match g.vmod with
    | none => g.base
    | some m => modBase g.base m
  match g.tone with
  | none => b
  | some t => tonedChar b t

/-- Render the syllable buffer: one character per grapheme. -/
def render (buf : List Grapheme) : List Char := buf.map renderG

def isVowelChar (c : Char) : Bool := (['a', 'e', 'i', 'o', 'u', 'y'] : List Char).contains c

/-- Modelled from the spec: engine configuration.  `enabled` is part of the
configuration record; `esc_restore` / `smart_mode` / `instant_restore` concern
the ESC-restore and auto-restore features, which no settled claim touches. -/
structure Config where
  inputMethod : InputMethod := .telex
  toneStyle : ToneStyle := .traditional
  skipWShortcut : Bool := false
  freeTone : Bool := false
  enabled : Bool := true
deriving DecidableEq, Repr

/-- Modelled from the spec: engine state is the syllable buffer plus the
active configuration.  The raw-key history (used only by ESC restore) and the
shortcut table (consulted only at word boundaries) are outside the claims
settled here. -/
structure Engine where
  config : Config
  buffer : List Grapheme := []
deriving DecidableEq, Repr

/-- Session construction: a fresh engine with the given configuration. -/
def mkEngine (cfg : Config) : Engine := { config := cfg }

/-- The session controller's clear operation: resets the current-word buffer,
keeping the configuration. -/
def Engine.clear (s : Engine) : Engine := { config := s.config }

/-- The session controller's enable/disable operation. -/
def Engine.setEnabled (s : Engine) (b : Bool) : Engine :=
  { s with config := { s.config with enabled := b } }

/-- Edit-command actions: pass the raw key through (`pass`), apply
backspace-then-chars (`send`), reinstall raw ASCII (`restore`). -/
inductive EditAction
  | pass
  | send
  | restore
deriving DecidableEq, Repr

/-- The edit command returned per key: characters to emit, trailing
user-visible characters to delete first, and the action discriminant. -/
structure EditCommand where
  chars : List Char := []
  backspace : Nat := 0
  action : EditAction := .pass
deriving DecidableEq, Repr

/-- The `None` edit command: raw key passes through, engine emits nothing. -/
def passCmd : EditCommand := {}

/-- Host-side application of an edit command to a shadow string: delete
`backspace` trailing user-visible characters, then append `chars`. -/
def applyCmd (s : List Char) (c : EditCommand) : List Char :=
  s.take (s.length - c.backspace) ++ c.chars

/-- A full-syllable rewrite command: backspace over the old render, then emit
the new render (the spec's tone/modifier emission rule). -/
def rewriteCmd (oldBuf newBuf : List Grapheme) : EditCommand :=
  { chars := render newBuf, backspace := (render oldBuf).length, action := .send }

/-- Append a grapheme and emit its rendered character. -/
def appendG (s : Engine) (g : Grapheme) : Engine × EditCommand :=
  ({ s with buffer := s.buffer ++ [g] },
   { chars := [renderG g], backspace := 0, action := .send })

/-- The fixed onset consonant clusters of the spec's parse. -/
def onsetClusters : List (List Char) :=
  [['b'], ['c'], ['c', 'h'], ['d'], ['đ'], ['g'], ['g', 'h'], ['g', 'i'],
   ['h'], ['k'], ['k', 'h'], ['l'], ['m'], ['n'], ['n', 'g'], ['n', 'g', 'h'],
   ['n', 'h'], ['p'], ['p', 'h'], ['q', 'u'], ['r'], ['s'], ['t'], ['t', 'h'],
   ['t', 'r'], ['v'], ['x']]

/-- The fixed coda consonant clusters of the spec's parse. -/
def codaClusters : List (List Char) :=
  [['c'], ['c', 'h'], ['m'], ['n'], ['n', 'g'], ['n', 'h'], ['p'], ['t']]

/-- Length of the onset: the longest leading cluster (by rendered characters)
drawn from the fixed onset set; 0 when none matches. -/
def onsetLen (buf : List Grapheme) : Nat :=
  let cs := buf.map renderG
  if 3 ≤ cs.length && onsetClusters.contains (cs.take 3) then 3
  else if 2 ≤ cs.length && onsetClusters.contains (cs.take 2) then 2
  else if 1 ≤ cs.length && onsetClusters.contains (cs.take 1) then 1
  else 0

/-- Parsed view of the buffer: onset, nucleus, coda. -/
structure Parse where
  onset : List Grapheme
  nucleus : List Grapheme
  coda : List Grapheme
deriving DecidableEq, Repr

/-- Modelled from the spec: decompose the grapheme sequence into onset
(longest cluster from the fixed set), nucleus (following vowel run), and the
trailing remainder as coda. -/
def parseBuf (buf : List Grapheme) : Parse :=
  let n := onsetLen buf
  let rest := buf.drop n
  let nuc := rest.takeWhile (fun g => isVowelChar g.base)
  ⟨buf.take n, nuc, rest.drop nuc.length⟩

/-- Modelled from the spec: a parse is a valid syllable shape when the onset
is empty or a listed cluster, the nucleus is non-empty, and the coda is empty
or a listed cluster.  (The spec does not enumerate the allowed
diphthong/triphthong inventory, so any vowel run is accepted as a nucleus.) -/
def validSyllable (p : Parse) : Bool :=
  (p.onset.isEmpty || onsetClusters.contains (p.onset.map renderG)) &&
  !p.nucleus.isEmpty &&
  (p.coda.isEmpty || codaClusters.contains (p.coda.map (fun g => g.base)))

/-- Index (from the right) of the last grapheme in `buf` whose base is in
`bases`. -/
def lastBaseIdx (buf : List Grapheme) (bases : List Char) : Option Nat :=
  (List.range buf.length).reverse.find?
    (fun i => bases.contains (buf.getD i defaultGrapheme).base)

/-- Index of the last modifier-bearing grapheme of the nucleus, if any. -/
def lastModIdx (nucleus : List Grapheme) : Option Nat :=
  (List.range nucleus.length).reverse.find?
    (fun i => (nucleus.getD i defaultGrapheme).vmod.isSome)

/-- The open diphthong patterns that take the tone on the second vowel even in
Traditional style (the spec's `oa`, `oe`, `uy` special case; the spec's
scenario table is authoritative). -/
def specialOpen : List (List Char) := [['o', 'a'], ['o', 'e'], ['u', 'y']]

/-- Modelled from the spec's orthography rules: the nucleus position that
receives the tone.  A modifier-bearing vowel wins; a monophthong takes it
directly; otherwise Traditional places it on the first vowel unless a coda is
present or the nucleus starts with one of the special open patterns, and
Modern places it on the main (second) vowel. -/
def nucleusToneIdx (style : ToneStyle) (nucleus : List Grapheme) (hasCoda : Bool) : Nat :=
  match lastModIdx nucleus with
  | some i => i
  | none =>
    if nucleus.length ≤ 1 then 0
    else
      match style with
      | .modern => 1
      | .traditional =>
        if hasCoda then 1
        else if specialOpen.contains ((nucleus.map (fun g => g.base)).take 2) then 1
        else 0

/-- Set (or clear) the tone of the grapheme at buffer position `i`. -/
def setToneAt (buf : List Grapheme) (i : Nat) (t : Option Tone) : List Grapheme :=
  buf.set i { buf.getD i defaultGrapheme with tone := t }

/-- Modelled from the spec's transformer: apply a tone-mark intent.  If no
nucleus exists, or the syllable shape is invalid and `free_tone` is off, the
intent is reported as the `None` command and the buffer is untouched.  If the
target vowel already carries the same tone, the press undoes it (retrigger),
and in Telex only the trigger key is additionally appended as a literal; the
spec's VNI scenario requires the retrigger test to inspect the buffer state
itself.  Otherwise the tone is set per the orthography rules, emitting a
full-syllable rewrite. -/
def applyTone (s : Engine) (t : Tone) (trigger : Char) (telexLiteral : Bool) :
    Engine × EditCommand :=
  let p := parseBuf s.buffer
  if p.nucleus.isEmpty then (s, passCmd)
  else if !(s.config.freeTone || validSyllable p) then (s, passCmd)
  else
    let i := p.onset.length + nucleusToneIdx s.config.toneStyle p.nucleus (!p.coda.isEmpty)
    let g := s.buffer.getD i defaultGrapheme
    if g.tone = some t then
      let buf1 := setToneAt s.buffer i none
      let buf2 := if telexLiteral then buf1 ++ [⟨trigger, none, none⟩] else buf1
      ({ s with buffer := buf2 }, rewriteCmd s.buffer buf2)
    else
      let buf1 := setToneAt s.buffer i (some t)
      ({ s with buffer := buf1 }, rewriteCmd s.buffer buf1)

/-- Modelled from the spec: VNI vowel-modifier application.  The modifier
lands on the most recent applicable vowel; a second press while the modifier
is present removes it again (the spec's `v i e 6 t 6` scenario requires this
retrigger to work across an intervening letter, so the test inspects the
buffer).  No applicable vowel yields the `None` command. -/
def vniMod (s : Engine) (m : VMod) (bases : List Char) : Engine × EditCommand :=
  match lastBaseIdx s.buffer bases with
  | none => (s, passCmd)
  | some i =>
    let g := s.buffer.getD i defaultGrapheme
    if g.vmod = some m then
      let buf1 := s.buffer.set i { g with vmod := none }
      ({ s with buffer := buf1 }, rewriteCmd s.buffer buf1)
    else
      let buf1 := s.buffer.set i { g with vmod := some m }
      ({ s with buffer := buf1 }, rewriteCmd s.buffer buf1)

/-- Modelled from the spec: VNI `0` removes the tone (stored on at most one
nucleus grapheme); with no tone present the key is reported as `None`. -/
def removeTone (s : Engine) : Engine × EditCommand :=
  if s.buffer.all (fun g => g.tone.isNone) then (s, passCmd)
  else
    let buf1 := s.buffer.map (fun g => { g with tone := none })
    ({ s with buffer := buf1 }, rewriteCmd s.buffer buf1)

/-- Telex tone-key decoding: s/f/r/x/j map to the five tones. -/
def telexToneOf (c : Char) : Option Tone :=
  match c with
  | 's' => some .acute
  | 'f' => some .grave
  | 'r' => some .hook
  | 'x' => some .tilde
  | 'j' => some .dot
  | _ => none

/-- Modelled from the spec: Telex `w` puts a horn on the most recent plain
`o`/`u`, and otherwise produces `ư` unless `skip_w_shortcut` keeps it a plain
letter. -/
def telexW (s : Engine) : Engine × EditCommand :=
  match lastBaseIdx s.buffer ['o', 'u'] with
  | some i =>
    let g := s.buffer.getD i defaultGrapheme
    if g.vmod.isNone then
      let buf1 := s.buffer.set i { g with vmod := some .horn }
      ({ s with buffer := buf1 }, rewriteCmd s.buffer buf1)
    else if s.config.skipWShortcut then appendG s ⟨'w', none, none⟩
    else appendG s ⟨'u', some .horn, none⟩
  | none =>
    if s.config.skipWShortcut then appendG s ⟨'w', none, none⟩
    else appendG s ⟨'u', some .horn, none⟩

/-- Modelled from the spec: one Telex letter/trigger step.  Tone keys after
any context apply their tone; a repeated `a`/`e`/`o` after the same plain
vowel applies the circumflex; `w` applies the horn or the `ư` shortcut; `dd`
replaces the trailing `d` with `đ` via a one-backspace one-character edit;
anything else is appended as a plain letter. -/
def telexStep (s : Engine) (c : Char) : Engine × EditCommand :=
  match telexToneOf c with
  | some t =>
    if s.buffer.isEmpty then appendG s ⟨c, none, none⟩
    else applyTone s t c true
  | none =>
    match s.buffer.getLast? with
    | some g =>
      if (['a', 'e', 'o'] : List Char).contains c && g.base == c && g.vmod.isNone then
        let buf1 := s.buffer.set (s.buffer.length - 1) { g with vmod := some .circ }
        ({ s with buffer := buf1 }, rewriteCmd s.buffer buf1)
      else if c == 'w' then telexW s
      else if c == 'd' && g.base == 'd' && g.vmod.isNone then
        let gd : Grapheme := ⟨'d', some .dbar, none⟩
        let buf1 := s.buffer.set (s.buffer.length - 1) gd
        ({ s with buffer := buf1 },
         { chars := [renderG gd], backspace := 1, action := .send })
      else appendG s ⟨c, none, none⟩
    | none =>
      if c == 'w' then telexW s else appendG s ⟨c, none, none⟩

/-- Modelled from the spec: one VNI step.  Digits 1–5 are the tones, 6/7/8
the circumflex/horn/breve, 9 the đ bar, 0 removes the tone; anything else is
a plain letter. -/
def vniStep (s : Engine) (c : Char) : Engine × EditCommand :=
  match c with
  | '1' => applyTone s .acute c false
  | '2' => applyTone s .grave c false
  | '3' => applyTone s .hook c false
  | '4' => applyTone s .tilde c false
  | '5' => applyTone s .dot c false
  | '6' => vniMod s .circ ['a', 'e', 'o']
  | '7' => vniMod s .horn ['o', 'u']
  | '8' => vniMod s .breve ['a']
  | '9' =>
    match s.buffer.getLast? with
    | some g =>
      if g.base == 'd' && g.vmod.isNone then
        let gd : Grapheme := ⟨'d', some .dbar, none⟩
        let buf1 := s.buffer.set (s.buffer.length - 1) gd
        ({ s with buffer := buf1 },
         { chars := [renderG gd], backspace := 1, action := .send })
      else (s, passCmd)
    | none => (s, passCmd)
  | '0' => removeTone s
  | c => appendG s ⟨c, none, none⟩

/-- Dispatch a printable key to the active input method's decoder+transformer. -/
def processChar (s : Engine) (c : Char) : Engine × EditCommand :=
  match s.config.inputMethod with
  | .telex => telexStep s c
  | .vni => vniStep s c

/-- Raw key events fed to the engine: a printable character or backspace. -/
inductive Key
  | ch (c : Char)
  | back
deriving DecidableEq, Repr

/-- Word-boundary (commit) characters: whitespace and punctuation. -/
def commitChars : List Char := [' ', '\n', '.', ',', ';', ':', '!', '?']

def isCommitKey : Key → Bool
  | .ch c => commitChars.contains c
  | .back => false

/-- Modelled from the spec: the transformer's single entry point.  A disabled
engine passes every event through unchanged; backspace deletes one
user-visible grapheme; a commit character drains the buffer and passes the
key through; other characters go to the active input method. -/
def process (s : Engine) (k : Key) : Engine × EditCommand :=
  if !s.config.enabled then (s, passCmd)
  else
    match k with
    | .back =>
      if s.buffer.isEmpty then (s, passCmd)
      else ({ s with buffer := s.buffer.dropLast },
            { chars := [], backspace := 1, action := .send })
    | .ch c =>
      if commitChars.contains c then ({ s with buffer := [] }, passCmd)
      else processChar s c

/-- Run the engine over a key sequence, keeping only the final state. -/
def run (s : Engine) : List Key → Engine
  | [] => s
  | k :: ks => run (process s k).1 ks

/-- Collect the edit commands emitted over a key sequence. -/
def outputs (s : Engine) : List Key → List EditCommand
  | [] => []
  | k :: ks => (process s k).2 :: outputs (process s k).1 ks

/-- Fold the emitted edit commands into a host-side shadow string. -/
def runShadow (s : Engine) (sh : List Char) : List Key → List Char
  | [] => sh
  | k :: ks => runShadow (process s k).1 (applyCmd sh (process s k).2) ks

/-! ### The foreign-function boundary

Status codes are embedded from the `FfiStatusCode` enum of
`test_ffi_v2.c`; the v2 out-parameter calls and the v1 global calls are
modelled from the spec and the header contracts, with pointers embedded as
`Option`/`Nat` handles. -/

def FFI_SUCCESS : Int := 0

def FFI_ERROR_NULL_POINTER : Int := -1

def FFI_ERROR_INVALID_ENGINE : Int := -2

def FFI_ERROR_PROCESSING : Int := -3

def FFI_ERROR_PANIC : Int := -99

/-- Decompose one rendered Vietnamese character back into a grapheme by
searching the composition table (used when a composed word is restored into
the buffer). -/
def charToGrapheme (c : Char) : Grapheme :=
  let search := (['a', 'e', 'i', 'o', 'u', 'y', 'd'] : List Char).findSome? fun b =>
    ([none, some .circ, some .breve, some .horn, some .dbar] : List (Option VMod)).findSome? fun m =>
      ([none, some .acute, some .grave, some .hook, some .tilde, some .dot] :
          List (Option Tone)).findSome? fun t =>
        if renderG ⟨b, m, t⟩ = c then some (⟨b, m, t⟩ : Grapheme) else none
  match search with
  | some g => g
  | none => ⟨c, none, none⟩

/-- The host process's engine handles: handle 0 plays the role of the null
pointer and is never a live handle. -/
abbrev HandleTable := List (Nat × Engine)

def lookupEngine (tbl : HandleTable) (h : Nat) : Option Engine :=
  (tbl.find? (fun p => p.1 == h)).map (fun p => p.2)

def updateEngine (tbl : HandleTable) (h : Nat) (e : Engine) : HandleTable :=
  tbl.map (fun p => if p.1 == h then (h, e) else p)

/-- Outcome of a v2 boundary call: the status integer, the resulting handle
table, and the edit command written to the out parameter (if any). -/
structure V2Reply where
  status : Int
  table : HandleTable
  result : Option EditCommand
deriving DecidableEq, Repr

/-- Modelled from the spec: the v2 out-parameter process-key call
(`ime_process_key_v2` is only declared, not defined, in the sources).
A missing out pointer or the null handle is rejected with the null-pointer
status; an unknown handle with the invalid-engine status; in each rejection
the handle table is untouched. -/
def ime_process_key_v2 (tbl : HandleTable) (h : Nat) (k : Key) (outProvided : Bool) :
    V2Reply :=
  if !outProvided then ⟨FFI_ERROR_NULL_POINTER, tbl, none⟩
  else if h = 0 then ⟨FFI_ERROR_NULL_POINTER, tbl, none⟩
  else
    match lookupEngine tbl h with
    | none => ⟨FFI_ERROR_INVALID_ENGINE, tbl, none⟩
    | some e => ⟨FFI_SUCCESS, updateEngine tbl h (process e k).1, some (process e k).2⟩

/-- Modelled from the spec: `engine_restore_word` at the v2 boundary
(declared in the headers, not defined in the sources).  The word argument is
`none` for a null pointer and `some none` for a byte string that fails UTF-8
decoding (decoding itself is abstracted); both rejections leave the handle
table untouched.  A decoded word seeds the buffer with its graphemes. -/
def ime_restore_word_v2 (tbl : HandleTable) (h : Nat) (word : Option (Option (List Char))) :
    Int × HandleTable :=
  if h = 0 then (FFI_ERROR_NULL_POINTER, tbl)
  else
    match word with
    | none => (FFI_ERROR_NULL_POINTER, tbl)
    | some none => (FFI_ERROR_PROCESSING, tbl)
    | some (some cs) =>
      match lookupEngine tbl h with
      | none => (FFI_ERROR_INVALID_ENGINE, tbl)
      | some e => (FFI_SUCCESS, updateEngine tbl h { e with buffer := cs.map charToGrapheme })

/-- Modelled from the spec and the bridging headers: `ime_init` installs the
process-wide engine of the v1 global API. -/
def ime_init (g : Option Engine) : Option Engine :=
  some (mkEngine {})

/-- Modelled from the spec and the bridging headers: `ime_key` processes one
key against the process-wide engine; it yields no result (a NULL pointer)
when the engine was never initialized, and a present (heap-allocated) result
afterwards.  Allocation itself is outside the model; presence of the result
stands for the non-null pointer. -/
def ime_key (g : Option Engine) (k : Key) : Option Engine × Option EditCommand :=
  match g with
  | none => (none, none)
  | some e => (some (process e k).1, some (process e k).2)

/-- Shape of one C boundary declaration, transcribed from the extern
declarations and headers in the sources: whether the function returns a
struct aggregate by value, whether it yields an edit-command or configuration
aggregate at all, and whether that aggregate is delivered through a
caller-allocated out parameter. -/
structure BoundaryFn where
  name : String
  returnsAggregateByValue : Bool
  yieldsAggregate : Bool
  aggregateViaOutParam : Bool
deriving DecidableEq, Repr

/-- The v1 handle-based API, from the extern declarations of
`test_c_minimal.c`, `test_stress.c` and `test_memory_leak.c`:
`ime_process_key` returns `FfiProcessResult` by value, `ime_set_config`
returns `FfiResult` by value, `ime_get_config` returns `FfiConfig` by
value. -/
def v1HandleDecls : List BoundaryFn :=
  [⟨"ime_engine_new", false, false, false⟩,
   ⟨"ime_process_key", true, true, false⟩,
   ⟨"ime_engine_free", false, false, false⟩,
   ⟨"ime_free_string", false, false, false⟩,
   ⟨"ime_set_config", true, false, false⟩,
   ⟨"ime_get_config", true, true, false⟩]

/-- The v1 global API, from the two bridging headers: `ime_key` and
`ime_key_ext` deliver the `ImeResult` edit command through a returned heap
pointer, not a caller-allocated out parameter. -/
def v1GlobalDecls : List BoundaryFn :=
  [⟨"ime_init", false, false, false⟩,
   ⟨"ime_key", false, true, false⟩,
   ⟨"ime_key_ext", false, true, false⟩,
   ⟨"ime_free", false, false, false⟩,
   ⟨"ime_method", false, false, false⟩,
   ⟨"ime_enabled", false, false, false⟩,
   ⟨"ime_clear", false, false, false⟩,
   ⟨"ime_clear_all", false, false, false⟩,
   ⟨"ime_skip_w_shortcut", false, false, false⟩,
   ⟨"ime_esc_restore", false, false, false⟩,
   ⟨"ime_free_tone", false, false, false⟩,
   ⟨"ime_modern", false, false, false⟩,
   ⟨"ime_instant_restore", false, false, false⟩,
   ⟨"ime_add_shortcut", false, false, false⟩,
   ⟨"ime_remove_shortcut", false, false, false⟩,
   ⟨"ime_clear_shortcuts", false, false, false⟩,
   ⟨"ime_restore_word", false, false, false⟩]

/-- The v2 out-parameter API, from the extern declarations of
`test_ffi_v2.c` (lines 91–97): every function returns only an `int32_t`
status, and the edit-command/configuration aggregates travel through
caller-allocated out parameters. -/
def v2BoundaryDecls : List BoundaryFn :=
  [⟨"ime_create_engine_v2", false, false, false⟩,
   ⟨"ime_destroy_engine_v2", false, false, false⟩,
   ⟨"ime_process_key_v2", false, true, true⟩,
   ⟨"ime_get_config_v2", false, true, true⟩,
   ⟨"ime_set_config_v2", false, false, false⟩,
   ⟨"ime_get_version_v2", false, false, true⟩,
   ⟨"ime_free_string_v2", false, false, false⟩]

/-- Every boundary declaration appearing in the sources. -/
def boundaryDecls : List BoundaryFn :=
  v1HandleDecls ++ v1GlobalDecls ++ v2BoundaryDecls

/-! ### Edit-command soundness infrastructure -/

theorem applyCmd_pass (sh : List Char) : applyCmd sh passCmd = sh := by
  simp [applyCmd, passCmd]

theorem applyCmd_rewrite (buf newBuf : List Grapheme) :
    applyCmd (render buf) (rewriteCmd buf newBuf) = render newBuf := by
  simp [applyCmd, rewriteCmd]

theorem appendG_sound (s : Engine) (g : Grapheme) :
    applyCmd (render s.buffer) (appendG s g).2 = render (appendG s g).1.buffer := by
  simp [applyCmd, appendG, render]

theorem applyCmd_setLast (buf : List Grapheme) (g : Grapheme) (h : buf ≠ []) :
    applyCmd (render buf)
        { chars := [renderG g], backspace := 1, action := EditAction.send } =
      render (buf.set (buf.length - 1) g) := by
  have hlen : 0 < buf.length := List.length_pos.mpr h
  have hlt : buf.length - 1 < (buf.map renderG).length := by
    simpa using Nat.sub_lt hlen Nat.one_pos
  simp only [applyCmd, render, List.map_set, List.length_map]
  rw [List.set_eq_take_cons_drop _ hlt]
  have hdrop : buf.length - 1 + 1 = buf.length := Nat.succ_pred_eq_of_pos hlen
  simp [hdrop]

theorem applyCmd_back (buf : List Grapheme) :
    applyCmd (render buf) { chars := [], backspace := 1, action := EditAction.send } =
      render buf.dropLast := by
  simp [applyCmd, render, List.map_dropLast, List.dropLast_eq_take]

theorem ne_nil_of_getLast?_some {α : Type} {l : List α} {a : α}
    (h : l.getLast? = some a) : l ≠ [] := by
  intro hnil
  rw [hnil] at h
  exact Option.noConfusion h

theorem applyTone_sound (s : Engine) (t : Tone) (c : Char) (lit : Bool) :
    applyCmd (render s.buffer) (applyTone s t c lit).2 =
      render (applyTone s t c lit).1.buffer := by
  simp only [applyTone]
  repeat' split
  all_goals
    first
      | exact applyCmd_pass _
      | exact applyCmd_rewrite _ _

theorem vniMod_sound (s : Engine) (m : VMod) (bases : List Char) :
    applyCmd (render s.buffer) (vniMod s m bases).2 =
      render (vniMod s m bases).1.buffer := by
  simp only [vniMod]
  repeat' split
  all_goals
    first
      | exact applyCmd_pass _
      | exact applyCmd_rewrite _ _

theorem removeTone_sound (s : Engine) :
    applyCmd (render s.buffer) (removeTone s).2 = render (removeTone s).1.buffer := by
  simp only [removeTone]
  split
  · exact applyCmd_pass _
  · exact applyCmd_rewrite _ _

theorem telexW_sound (s : Engine) :
    applyCmd (render s.buffer) (telexW s).2 = render (telexW s).1.buffer := by
  simp only [telexW]
  repeat' split
  all_goals
    first
      | exact applyCmd_rewrite _ _
      | exact appendG_sound _ _

theorem telexStep_sound (s : Engine) (c : Char) :
    applyCmd (render s.buffer) (telexStep s c).2 = render (telexStep s c).1.buffer := by
  simp only [telexStep]
  split
  · split
    · exact appendG_sound _ _
    · exact applyTone_sound _ _ _ _
  · split
    next g hg =>
      have hne : s.buffer ≠ [] := ne_nil_of_getLast?_some hg
      split
      · exact applyCmd_rewrite _ _
      · split
        · exact telexW_sound _
        · split
          · exact applyCmd_setLast _ _ hne
          · exact appendG_sound _ _
    next hg =>
      split
      · exact telexW_sound _
      · exact appendG_sound _ _

theorem vniStep_sound (s : Engine) (c : Char) :
    applyCmd (render s.buffer) (vniStep s c).2 = render (vniStep s c).1.buffer := by
  simp only [vniStep]
  split
  · exact applyTone_sound _ _ _ _
  · exact applyTone_sound _ _ _ _
  · exact applyTone_sound _ _ _ _
  · exact applyTone_sound _ _ _ _
  · exact applyTone_sound _ _ _ _
  · exact vniMod_sound _ _ _
  · exact vniMod_sound _ _ _
  · exact vniMod_sound _ _ _
  · split
    next g hg =>
      have hne : s.buffer ≠ [] := ne_nil_of_getLast?_some hg
      split
      · exact applyCmd_setLast _ _ hne
      · exact applyCmd_pass _
    next hg => exact applyCmd_pass _
  · exact removeTone_sound _
  · exact appendG_sound _ _

theorem processChar_sound (s : Engine) (c : Char) :
    applyCmd (render s.buffer) (processChar s c).2 = render (processChar s c).1.buffer := by
  unfold processChar
  split
  · exact telexStep_sound _ _
  · exact vniStep_sound _ _

theorem process_sound (s : Engine) (k : Key) (h : isCommitKey k = false) :
    applyCmd (render s.buffer) (process s k).2 = render (process s k).1.buffer := by
  unfold process
  split
  · exact applyCmd_pass _
  · match k with
    | .back =>
      dsimp only
      split
      · exact applyCmd_pass _
      · exact applyCmd_back _
    | .ch c =>
      dsimp only
      have hc : commitChars.contains c = false := h
      rw [hc]
      simp only [Bool.false_eq_true, if_false]
      exact processChar_sound _ _

theorem runShadow_eq (s : Engine) (ks : List Key)
    (h : ∀ k ∈ ks, isCommitKey k = false) :
    runShadow s (render s.buffer) ks = render (run s ks).buffer := by
  induction ks generalizing s with
  | nil => rfl
  | cons k rest ih =>
    have hk : isCommitKey k = false := h k (List.mem_cons_self k rest)
    have hrest : ∀ k' ∈ rest, isCommitKey k' = false :=
      fun k' hm => h k' (List.mem_cons_of_mem _ hm)
    show runShadow (process s k).1 (applyCmd (render s.buffer) (process s k).2) rest =
      render (run (process s k).1 rest).buffer
    rw [process_sound s k hk]
    exact ih _ hrest

/-! ### Helper facts for inapplicable intents and the disabled engine -/

theorem takeWhile_nil_of_all {α : Type} (p : α → Bool) (l : List α)
    (h : ∀ a ∈ l, p a = false) : l.takeWhile p = [] := by
  cases l with
  | nil => rfl
  | cons a t =>
    have ha : p a = false := h a (List.mem_cons_self a t)
    simp [List.takeWhile_cons, ha]

theorem nucleus_nil_of_no_vowel (buf : List Grapheme)
    (h : ∀ g ∈ buf, isVowelChar g.base = false) : (parseBuf buf).nucleus = [] := by
  show (buf.drop (onsetLen buf)).takeWhile (fun g => isVowelChar g.base) = []
  exact takeWhile_nil_of_all _ _ (fun g hg => h g (List.mem_of_mem_drop hg))

theorem applyTone_no_nucleus (s : Engine) (t : Tone) (c : Char) (lit : Bool)
    (h : (parseBuf s.buffer).nucleus = []) :
    applyTone s t c lit = (s, passCmd) := by
  simp [applyTone, h]

theorem process_disabled (s : Engine) (k : Key) (h : s.config.enabled = false) :
    process s k = (s, passCmd) := by
  simp [process, h]

theorem run_disabled (s : Engine) (ks : List Key) (h : s.config.enabled = false) :
    run s ks = s := by
  induction ks with
  | nil => rfl
  | cons k rest ih =>
    show run (process s k).1 rest = s
    rw [process_disabled s k h]
    exact ih

theorem outputs_disabled (s : Engine) (ks : List Key) (h : s.config.enabled = false) :
    ∀ c ∈ outputs s ks, c = passCmd := by
  induction ks with
  | nil =>
    intro c hc
    exact absurd hc (List.not_mem_nil c)
  | cons k rest ih =>
    intro c hc
    have hc' : c ∈ (process s k).2 :: outputs (process s k).1 rest := hc
    rw [process_disabled s k h] at hc'
    rcases List.mem_cons.mp hc' with hc1 | hc2
    · exact hc1
    · exact ih c hc2

theorem telexStep_tone_no_nucleus (s : Engine) (k : Char) (t : Tone)
    (ht : telexToneOf k = some t) (hb : s.buffer ≠ [])
    (hnuc : (parseBuf s.buffer).nucleus = []) :
    telexStep s k = (s, passCmd) := by
  simp only [telexStep, ht]
  rw [if_neg]
  · exact applyTone_no_nucleus s t k true hnuc
  · simp [List.isEmpty_iff, hb]

/-! ### The claims -/

/-- Claim C1, counterexample: edit-command soundness fails as stated once a
commit (word-boundary) key occurs.  After the keys `a`, space, the shadow
string built from the emitted edit commands still holds `a` while the engine
has drained its buffer, so the two sides differ. -/
theorem C1_counterexample :
    ¬ (runShadow (mkEngine {}) [] [Key.ch 'a', Key.ch ' '] =
        render (run (mkEngine {}) [Key.ch 'a', Key.ch ' ']).buffer) := by
  decide

/-- Claim C1 (amended): for every configuration and every sequence of key
events containing no commit (word-boundary) key, applying each emitted edit
command in order to an initially empty shadow string yields exactly the
engine's internal buffer render.  (Every step is covered: each prefix of such
a sequence is again such a sequence.) -/
theorem C1_edit_command_soundness (cfg : Config) (ks : List Key)
    (h : ∀ k ∈ ks, isCommitKey k = false) :
    runShadow (mkEngine cfg) [] ks = render (run (mkEngine cfg) ks).buffer :=
  runShadow_eq (mkEngine cfg) ks h

/-- Claim C1, witness: the amended soundness theorem applied to the concrete
commit-free key sequence `t`, `o`, `a`, `s`. -/
theorem C1_witness :
    (∀ k ∈ ([Key.ch 't', Key.ch 'o', Key.ch 'a', Key.ch 's'] : List Key),
        isCommitKey k = false) ∧
    runShadow (mkEngine {}) [] [Key.ch 't', Key.ch 'o', Key.ch 'a', Key.ch 's'] =
      render (run (mkEngine {}) [Key.ch 't', Key.ch 'o', Key.ch 'a', Key.ch 's']).buffer :=
  ⟨by decide, C1_edit_command_soundness {} _ (by decide)⟩

/-- Claim C2: restartability.  Replaying any raw-key sequence after `clear()`
yields the same buffer render as feeding it to a fresh engine with the same
configuration: in this model the whole per-word state is the syllable buffer,
which `clear` resets, so the cleared engine coincides with a fresh one. -/
theorem C2_restartability (s : Engine) (ks : List Key) :
    render (run (Engine.clear s) ks).buffer = render (run (mkEngine s.config) ks).buffer :=
  rfl

/-- Claim C3: Telex with Traditional tone style places the tone of the open
`oa` nucleus on the second vowel: `t o a s` renders `toá` and `t o a n s`
renders `toán`. -/
theorem C3_telex_traditional_oa :
    render (run (mkEngine {}) [Key.ch 't', Key.ch 'o', Key.ch 'a', Key.ch 's']).buffer =
      ['t', 'o', 'á'] ∧
    render (run (mkEngine {})
        [Key.ch 't', Key.ch 'o', Key.ch 'a', Key.ch 'n', Key.ch 's']).buffer =
      ['t', 'o', 'á', 'n'] := by
  decide

/-- Claim C4: double-trigger undo.  For any vowel `x`, Telex tone trigger `k`
and VNI tone digit `d`: in Telex, `x k k` cancels the tone and keeps the
second trigger as a literal, rendering `x` followed by `k`; in VNI, `x d 0`
removes the tone again, rendering just `x`. -/
theorem C4_double_trigger_undo (x k d : Char)
    (hx : x ∈ (['a', 'e', 'i', 'o', 'u', 'y'] : List Char))
    (hk : k ∈ (['s', 'f', 'r', 'x', 'j'] : List Char))
    (hd : d ∈ (['1', '2', '3', '4', '5'] : List Char)) :
    render (run (mkEngine {}) [Key.ch x, Key.ch k, Key.ch k]).buffer = [x, k] ∧
    render (run (mkEngine { inputMethod := .vni })
        [Key.ch x, Key.ch d, Key.ch '0']).buffer = [x] := by
  fin_cases hx <;> fin_cases hk <;> fin_cases hd <;> decide

/-- Claim C4, witness: the double-trigger theorem at `x = a`, `k = s`,
`d = 1`. -/
theorem C4_witness :
    render (run (mkEngine {}) [Key.ch 'a', Key.ch 's', Key.ch 's']).buffer = ['a', 's'] ∧
    render (run (mkEngine { inputMethod := .vni })
        [Key.ch 'a', Key.ch '1', Key.ch '0']).buffer = ['a'] :=
  C4_double_trigger_undo 'a' 's' '1' (by decide) (by decide) (by decide)

/-- Claim C5: in VNI, `v i e 6 t 6` first applies the circumflex to `e`
(render `viê` after the first `6`) and the second `6` undoes it across the
intervening `t`, leaving the final render `viet`. -/
theorem C5_vni_circumflex_retrigger :
    render (run (mkEngine { inputMethod := .vni })
        [Key.ch 'v', Key.ch 'i', Key.ch 'e', Key.ch '6']).buffer = ['v', 'i', 'ê'] ∧
    render (run (mkEngine { inputMethod := .vni })
        [Key.ch 'v', Key.ch 'i', Key.ch 'e', Key.ch '6', Key.ch 't', Key.ch '6']).buffer =
      ['v', 'i', 'e', 't'] := by
  decide

/-- Claim C6: inapplicable intents never fail.  A tone-mark key arriving on a
buffer with no vowel (the spec's consonant-only example, `free_tone` off)
produces exactly the `None` edit command and leaves the whole engine state
unchanged; `process` is a total function, so no exception or error status is
possible. -/
theorem C6_inapplicable_intent_none (s : Engine) (k : Char)
    (hen : s.config.enabled = true)
    (hfree : s.config.freeTone = false)
    (hcons : ∀ g ∈ s.buffer, isVowelChar g.base = false)
    (hk : (s.config.inputMethod = InputMethod.telex ∧
            k ∈ (['s', 'f', 'r', 'x', 'j'] : List Char) ∧ s.buffer ≠ []) ∨
          (s.config.inputMethod = InputMethod.vni ∧
            k ∈ (['1', '2', '3', '4', '5'] : List Char))) :
    process s (Key.ch k) = (s, passCmd) ∧ passCmd.action = EditAction.pass := by
  refine ⟨?_, rfl⟩
  have hnuc := nucleus_nil_of_no_vowel s.buffer hcons
  have hproc : ∀ c : Char, commitChars.contains c = false →
      process s (Key.ch c) = processChar s c := by
    intro c hc
    simp at hc
    simp [process, hen, hc]
  rcases hk with ⟨hm, hmem, hb⟩ | ⟨hm, hmem⟩
  · have htel : ∀ (c : Char) (t : Tone), telexToneOf c = some t →
        commitChars.contains c = false → process s (Key.ch c) = (s, passCmd) := by
      intro c t ht hc
      rw [hproc c hc]
      rw [show processChar s c = telexStep s c from by simp [processChar, hm]]
      exact telexStep_tone_no_nucleus s c t ht hb hnuc
    fin_cases hmem
    · exact htel 's' Tone.acute rfl (by decide)
    · exact htel 'f' Tone.grave rfl (by decide)
    · exact htel 'r' Tone.hook rfl (by decide)
    · exact htel 'x' Tone.tilde rfl (by decide)
    · exact htel 'j' Tone.dot rfl (by decide)
  · have hvni : ∀ (c : Char) (t : Tone), vniStep s c = applyTone s t c false →
        commitChars.contains c = false → process s (Key.ch c) = (s, passCmd) := by
      intro c t hv hc
      rw [hproc c hc]
      rw [show processChar s c = vniStep s c from by simp [processChar, hm]]
      rw [hv]
      exact applyTone_no_nucleus s t c false hnuc
    fin_cases hmem
    · exact hvni '1' Tone.acute rfl (by decide)
    · exact hvni '2' Tone.grave rfl (by decide)
    · exact hvni '3' Tone.hook rfl (by decide)
    · exact hvni '4' Tone.tilde rfl (by decide)
    · exact hvni '5' Tone.dot rfl (by decide)

/-- Claim C6, witness: the acute tone key `s` on the consonant-only buffer
`t` of a default Telex engine yields the `None` command and leaves the state
unchanged. -/
theorem C6_witness :
    process { config := {}, buffer := [⟨'t', none, none⟩] } (Key.ch 's') =
      ({ config := {}, buffer := [⟨'t', none, none⟩] }, passCmd) :=
  (C6_inapplicable_intent_none { config := {}, buffer := [⟨'t', none, none⟩] } 's'
    rfl rfl (by decide) (Or.inl ⟨rfl, by decide, by decide⟩)).1

/-- Claim C7: boundary status codes (embedded from the `FfiStatusCode` enum
of `test_ffi_v2.c`) and atomic rejection.  The code constants are 0, -1, -2,
-3, -99; a missing out pointer or null handle is rejected with the
null-pointer code, an unknown handle with the invalid-engine code, a null or
UTF-8-invalid word with the null-pointer resp. processing code, and every
rejection leaves the handle table (hence every engine state) unchanged; a
valid call returns the success code. -/
theorem C7_boundary_status_codes :
    (FFI_SUCCESS = 0 ∧ FFI_ERROR_NULL_POINTER = -1 ∧ FFI_ERROR_INVALID_ENGINE = -2 ∧
      FFI_ERROR_PROCESSING = -3 ∧ FFI_ERROR_PANIC = -99) ∧
    (∀ (tbl : HandleTable) (h : Nat) (k : Key),
      ime_process_key_v2 tbl h k false = ⟨FFI_ERROR_NULL_POINTER, tbl, none⟩) ∧
    (∀ (tbl : HandleTable) (k : Key),
      ime_process_key_v2 tbl 0 k true = ⟨FFI_ERROR_NULL_POINTER, tbl, none⟩) ∧
    (∀ (tbl : HandleTable) (h : Nat) (k : Key), h ≠ 0 → lookupEngine tbl h = none →
      ime_process_key_v2 tbl h k true = ⟨FFI_ERROR_INVALID_ENGINE, tbl, none⟩) ∧
    (∀ (tbl : HandleTable) (h : Nat) (k : Key) (e : Engine), h ≠ 0 →
      lookupEngine tbl h = some e →
      (ime_process_key_v2 tbl h k true).status = FFI_SUCCESS) ∧
    (∀ (tbl : HandleTable) (h : Nat),
      ime_restore_word_v2 tbl h none = (FFI_ERROR_NULL_POINTER, tbl)) ∧
    (∀ (tbl : HandleTable) (h : Nat), h ≠ 0 →
      ime_restore_word_v2 tbl h (some none) = (FFI_ERROR_PROCESSING, tbl)) := by
  refine ⟨⟨rfl, rfl, rfl, rfl, rfl⟩, ?_, ?_, ?_, ?_, ?_, ?_⟩
  · intro tbl h k
    rfl
  · intro tbl k
    rfl
  · intro tbl h k hh hl
    simp [ime_process_key_v2, hh, hl]
  · intro tbl h k e hh hl
    simp [ime_process_key_v2, hh, hl]
  · intro tbl h
    by_cases hh : h = 0
    · subst hh
      rfl
    · simp [ime_restore_word_v2, hh]
  · intro tbl h hh
    simp [ime_restore_word_v2, hh]

/-- Claim C7, witness: processing a key against an unknown (stale) handle in
a one-entry handle table returns the invalid-engine code and leaves the
table unchanged. -/
theorem C7_witness :
    ime_process_key_v2 [(1, mkEngine {})] 2 (Key.ch 'a') true =
      ⟨FFI_ERROR_INVALID_ENGINE, [(1, mkEngine {})], none⟩ :=
  C7_boundary_status_codes.2.2.2.1 [(1, mkEngine {})] 2 (Key.ch 'a')
    (by decide) (by decide)

/-- Claim C8, counterexample: the sources do declare boundary functions that
return struct aggregates by value — the v1 `ime_process_key` returns
`FfiProcessResult` by value (and `ime_get_config` / `ime_set_config`
likewise return structs), so the claim as stated is false of the declared
boundary surface. -/
theorem C8_counterexample :
    ¬ (∀ f ∈ boundaryDecls, f.returnsAggregateByValue = false) := by
  decide

/-- Claim C8 (amended): restricted to the canonical v2 out-parameter API of
`test_ffi_v2.c` — the shape the spec designates as the boundary contract —
no function returns a struct aggregate by value, and every function that
yields an edit-command or configuration aggregate delivers it through a
caller-allocated out parameter while returning only a status integer. -/
theorem C8_v2_out_parameter_shape (f : BoundaryFn) (hf : f ∈ v2BoundaryDecls) :
    f.returnsAggregateByValue = false ∧
      (f.yieldsAggregate = true → f.aggregateViaOutParam = true) := by
  fin_cases hf <;> decide

/-- Claim C8, witness: the amended statement at the v2 process-key
declaration. -/
theorem C8_witness :
    (⟨"ime_process_key_v2", false, true, true⟩ : BoundaryFn) ∈ v2BoundaryDecls ∧
    ((⟨"ime_process_key_v2", false, true, true⟩ : BoundaryFn).returnsAggregateByValue = false ∧
      ((⟨"ime_process_key_v2", false, true, true⟩ : BoundaryFn).yieldsAggregate = true →
        (⟨"ime_process_key_v2", false, true, true⟩ : BoundaryFn).aggregateViaOutParam = true)) :=
  ⟨by decide, C8_v2_out_parameter_shape _ (by decide)⟩

/-- Claim C9: disabled pass-through.  Starting from any engine whose buffer
is empty and disabling it via the enable/disable operation, every key event
yields the `None` command and the buffer remains empty throughout (the run
never leaves the initial state). -/
theorem C9_disabled_passthrough (s : Engine) (ks : List Key) (hb : s.buffer = []) :
    (run (s.setEnabled false) ks).buffer = [] ∧
    ∀ c ∈ outputs (s.setEnabled false) ks, c.action = EditAction.pass := by
  have hd : (s.setEnabled false).config.enabled = false := rfl
  constructor
  · rw [run_disabled _ _ hd]
    exact hb
  · intro c hc
    rw [outputs_disabled _ _ hd c hc]
    rfl

/-- Claim C9, witness: a fresh disabled engine fed a letter and a backspace
keeps an empty buffer. -/
theorem C9_witness :
    (run ((mkEngine {}).setEnabled false) [Key.ch 'a', Key.back]).buffer = [] :=
  (C9_disabled_passthrough (mkEngine {}) [Key.ch 'a', Key.back] rfl).1

/-- Claim C10: the global v1 surface returns a null result pointer when
`ime_key` is called before `ime_init`, and a present (non-null,
heap-allocated) result for every key after `ime_init`. -/
theorem C10_global_init_precondition (g : Option Engine) (k : Key) :
    (ime_key none k).2 = none ∧ ((ime_key (ime_init g) k).2).isSome = true :=
  ⟨rfl, rfl⟩

end GoxViet
